import Mathlib

/-!
Verification of the asynchronous engine-analysis subsystem of the
"Dorothy's Mind Games" chess game (`src/engine/analyzer.py`,
`src/states/game_state.py`, `src/core/constants.py`).

The Python code is shallowly embedded: Python `int` becomes `Int`
(arbitrary precision in both), `str` becomes `String`, lists become
`List`, the thread-safe result queue becomes an explicit `Channel`
state record, and fallible code (Python exceptions) returns `Except`.
-/

namespace MindGames

/-! ### Constants (`src/core/constants.py`, lines 99-101) -/
def BLUNDER_THRESHOLD_CP : Int := 200

def MISTAKE_THRESHOLD_CP : Int := 100

def INACCURACY_THRESHOLD_CP : Int := 50

/-! ### Data structures (`analyzer.py`, lines 33-75) -/

/-- `AnalysisResult` dataclass (`analyzer.py` lines 33-43).  All fields
default to the Python dataclass defaults (zero / `None` / `""` / `[]` /
`False`). -/
structure AnalysisResult where
  depth : Int := 0
  score_cp : Int := 0
  score_mate : Option Int := none
  best_move : String := ""
  pv : List String := []
  nodes : Int := 0
  nps : Int := 0
  is_mate : Bool := false
deriving Repr, DecidableEq

/-- The zero-valued result a fresh analyzer holds (`__init__` line 103:
`self._latest: AnalysisResult = AnalysisResult()`). -/
def zeroResult : AnalysisResult := {}

/-- `MoveClassification` dataclass (`analyzer.py` lines 52-60). -/
structure MoveClassification where
  uci_move : String
  eval_before : Int
  eval_after : Int
  cp_loss : Int
  label : String
  is_blunder : Bool := false
deriving Repr, DecidableEq

/-- `MoveClassification.classify` (`analyzer.py` lines 62-75). -/
def MoveClassification.classify (cp_loss : Int) : String :=
  if cp_loss ≤ 0 then "brilliant"
  else if cp_loss ≤ 10 then "best"
  else if cp_loss < INACCURACY_THRESHOLD_CP then "good"
  else if cp_loss < MISTAKE_THRESHOLD_CP then "inaccuracy"
  else if cp_loss < BLUNDER_THRESHOLD_CP then "mistake"
  else "blunder"

/-- `StockfishAnalyzer.classify_move` (`analyzer.py` lines 190-208). -/
def classify_move (eval_before_cp eval_after_cp : Int) (uci_move : String)
    (player_is_white : Bool) : MoveClassification :=
  let loss0 : Int :=
    if player_is_white then eval_before_cp - eval_after_cp
    else eval_after_cp - eval_before_cp
  let loss := max 0 loss0
  { uci_move := uci_move
    eval_before := eval_before_cp
    eval_after := eval_after_cp
    cp_loss := loss
    label := MoveClassification.classify loss
    is_blunder := decide (loss ≥ BLUNDER_THRESHOLD_CP) }

/-- The classification step of `GameState._make_player_move`
(`game_state.py` lines 384-407): `eval_before` is read from the cached
analysis (`self._analysis.score_cp`, refreshed from `get_latest` each
frame), and `eval_after` is estimated as `-eval_before` instead of
waiting for a fresh engine evaluation. -/
def make_player_move_classification (analysis : AnalysisResult)
    (uci : String) (player_is_white : Bool) : MoveClassification :=
  let eval_before := analysis.score_cp
  let eval_after := -eval_before
  classify_move eval_before eval_after uci player_is_white

/-! ### String helpers modelling Python primitives

`pySplit` models `str.split()` with no argument: split on runs of
whitespace, discarding empty fields.  `pyStrip` models `str.strip()`.
`pyInt?` models `int(token)` on a whitespace-free token: an optional
sign followed by at least one decimal digit, `none` when `int` would
raise `ValueError`.  (Python's `int` additionally accepts underscores
between digits and non-ASCII digits; engine tokens contain neither.) -/

def decDigit? (c : Char) : Option Nat :=
  if '0' ≤ c ∧ c ≤ '9' then some (c.toNat - '0'.toNat) else none

def decDigitsAux : List Char → Nat → Option Nat
  | [], acc => some acc
  | c :: cs, acc =>
    match decDigit? c with
    | some d => decDigitsAux cs (acc * 10 + d)
    | none => none

def decDigits? : List Char → Option Nat
  | [] => none
  | cs => decDigitsAux cs 0

def pyInt? (s : String) : Option Int :=
  match s.data with
  | '+' :: cs => (decDigits? cs).map Int.ofNat
  | '-' :: cs => (decDigits? cs).map (fun n => -(Int.ofNat n))
  | cs => (decDigits? cs).map Int.ofNat

def splitWsAux : List Char → List Char → List String
  | [], acc => if acc = [] then [] else [String.mk acc.reverse]
  | c :: cs, acc =>
    if c.isWhitespace then
      if acc = [] then splitWsAux cs []
      else String.mk acc.reverse :: splitWsAux cs []
    else splitWsAux cs (c :: acc)

def pySplit (s : String) : List String := splitWsAux s.data []

def pyStrip (s : String) : String :=
  String.mk (((s.data.dropWhile Char.isWhitespace).reverse.dropWhile
    Char.isWhitespace).reverse)

/-- Python `line.startswith(p)`. -/
def pyStartsWith (p line : String) : Bool := p.data.isPrefixOf line.data

/-! ### The info-line parser (`analyzer.py` lines 264-299)

`StockfishAnalyzer._parse_info` walks the token list with an index `i`
advancing by 1, 2 or 3; we embed the walk as structural recursion on
the remaining tokens.  A conversion `int(tokens[j])` that would raise
`ValueError` is embedded as `Except.error ()` (the Python function has
no handler, so the exception escapes `_parse_info`). -/

def parseLoop : AnalysisResult → List String → Except Unit AnalysisResult
  | r, [] => .ok r
  | r, "depth" :: v :: rest =>
    (match pyInt? v with
     | some n => parseLoop { r with depth := n } rest
     | none => .error ())
  | r, "score" :: kind :: v :: rest =>
    (match pyInt? v with
     | some val =>
       if kind = "cp" then
         parseLoop { r with score_cp := val, is_mate := false } rest
       else if kind = "mate" then
         let r2 : AnalysisResult :=
           { r with score_mate := some val, is_mate := true,
                    score_cp := (if 0 < val then (30000 : Int) else -30000) }
         parseLoop r2 rest
       else parseLoop r rest
     | none => .error ())
  | r, "nodes" :: v :: rest =>
    (match pyInt? v with
     | some n => parseLoop { r with nodes := n } rest
     | none => .error ())
  | r, "nps" :: v :: rest =>
    (match pyInt? v with
     | some n => parseLoop { r with nps := n } rest
     | none => .error ())
  | r, "pv" :: rest =>
    .ok { r with pv := rest, best_move := rest.headD r.best_move }
  | r, _ :: rest => parseLoop r rest

/-- `StockfishAnalyzer._parse_info`. -/
def parse_info (line : String) : Except Unit AnalysisResult :=
  parseLoop {} (pySplit line)

/-! ### Families of benign intermediate tokens

A UCI `info` line carries many keyed fields; the claims quantify over
the "`...`" part of a line.  `MidTokens` describes token runs that the
Python loop traverses without touching `depth`, the score fields,
`best_move` or `pv` (i.e. `nodes`/`nps` fields and tokens it skips);
`MateMidTokens` additionally allows `depth <n>` fields (it preserves
everything but `depth`, `nodes`, `nps`). -/

inductive MidTokens : List String → Prop where
  | nil : MidTokens []
  | nodes {v : String} {rest : List String} :
      (pyInt? v).isSome = true → MidTokens rest →
      MidTokens ("nodes" :: v :: rest)
  | nps {v : String} {rest : List String} :
      (pyInt? v).isSome = true → MidTokens rest →
      MidTokens ("nps" :: v :: rest)
  | skip {t : String} {rest : List String} :
      t ≠ "depth" → t ≠ "score" → t ≠ "nodes" → t ≠ "nps" → t ≠ "pv" →
      MidTokens rest → MidTokens (t :: rest)

inductive MateMidTokens : List String → Prop where
  | nil : MateMidTokens []
  | depth {v : String} {rest : List String} :
      (pyInt? v).isSome = true → MateMidTokens rest →
      MateMidTokens ("depth" :: v :: rest)
  | nodes {v : String} {rest : List String} :
      (pyInt? v).isSome = true → MateMidTokens rest →
      MateMidTokens ("nodes" :: v :: rest)
  | nps {v : String} {rest : List String} :
      (pyInt? v).isSome = true → MateMidTokens rest →
      MateMidTokens ("nps" :: v :: rest)
  | skip {t : String} {rest : List String} :
      t ≠ "depth" → t ≠ "score" → t ≠ "nodes" → t ≠ "nps" → t ≠ "pv" →
      MateMidTokens rest → MateMidTokens (t :: rest)

/-! ### Totality of the parser on well-formed lines (C9) -/

/-- Token lists on which the Python loop cannot raise: every recognized
numeric field (`depth`, `score <kind>`, `nodes`, `nps`) carries a token
`int()` accepts, everything else is skipped, and anything after `pv` is
consumed verbatim. -/
inductive WfTokens : List String → Prop where
  | nil : WfTokens []
  | depth {v : String} {rest : List String} :
      (pyInt? v).isSome = true → WfTokens rest →
      WfTokens ("depth" :: v :: rest)
  | score {kind v : String} {rest : List String} :
      (pyInt? v).isSome = true → WfTokens rest →
      WfTokens ("score" :: kind :: v :: rest)
  | nodes {v : String} {rest : List String} :
      (pyInt? v).isSome = true → WfTokens rest →
      WfTokens ("nodes" :: v :: rest)
  | nps {v : String} {rest : List String} :
      (pyInt? v).isSome = true → WfTokens rest →
      WfTokens ("nps" :: v :: rest)
  | pv {rest : List String} : WfTokens ("pv" :: rest)
  | skip {t : String} {rest : List String} :
      t ≠ "depth" → t ≠ "score" → t ≠ "nodes" → t ≠ "nps" → t ≠ "pv" →
      WfTokens rest → WfTokens (t :: rest)

/-! ### Result channel (`analyzer.py` lines 98, 103, 178-188)

The analyzer's `Queue(maxsize=64)` together with the cached
`self._latest` field form the state shared across the concurrency
boundary.  We model the two fields explicitly; `Channel.put` is a
successful `Queue.put` (FIFO append), and `Channel.pushIfNotFull` is
the guarded push the analysis loop performs
(`if not self._queue.full(): self._queue.put(result)`). -/

structure Channel where
  buffer : List AnalysisResult
  latest : AnalysisResult
deriving Repr, DecidableEq

/-- A fresh analyzer's channel state (`__init__` lines 98 and 103). -/
def Channel.init : Channel := { buffer := [], latest := zeroResult }

/-- A successful `Queue.put`: FIFO append of one result. -/
def Channel.put (ch : Channel) (r : AnalysisResult) : Channel :=
  { ch with buffer := ch.buffer ++ [r] }

/-- The analysis loop's guarded push (`analyzer.py` lines 253-254 and
260-261): the result is dropped when the 64-slot queue is full. -/
def Channel.pushIfNotFull (ch : Channel) (r : AnalysisResult) : Channel :=
  if ch.buffer.length < 64 then ch.put r else ch

/-- `StockfishAnalyzer.get_latest` (`analyzer.py` lines 178-188): drain
the queue with `get_nowait` keeping only the freshest element, fall back
to the cached `_latest` when the queue is empty, cache and return the
result. -/
def get_latest (ch : Channel) : AnalysisResult × Channel :=
  let latest := ch.buffer.getLastD ch.latest
  (latest, { buffer := [], latest := latest })

/-! ### Analysis loop and position control (`analyzer.py` lines 171-262)

The shared state touched by `set_position` and the background
`_analysis_loop` is the current FEN (guarded by `_lock`) and the
`_new_position` event.  We model one wake-up of the loop body
(`_analysis_loop` lines 227-262) as a deterministic function of the
shared state and of the script of lines the engine emits for the
search; the commands written to the engine are collected in `sent`. -/

structure AnalyzerState where
  current_fen : String
  new_position : Bool
  sent : List String
deriving Repr, DecidableEq

/-- `StockfishAnalyzer.set_position` (`analyzer.py` lines 171-175):
overwrite `_current_fen` under the lock and set the `_new_position`
event.  No queue of pending positions exists. -/
def set_position (st : AnalyzerState) (fen : String) : AnalyzerState :=
  { st with current_fen := fen, new_position := true }

def goCmd (depth : Int) : String := "go depth " ++ toString depth

/-- The inner read loop of `_analysis_loop` (lines 241-262): read lines
until `bestmove`, pushing each parsed `info depth` line and the
finalized result into the queue when it is not full.  The `[]` case
models the stream ending (the Python loop would block in `readline` or
exit on shutdown there; the scenarios below always end the script with
a `bestmove` line, so it is not reached). -/
def runSearch : List String → AnalysisResult → Channel → Except Unit Channel
  | [], _, ch => .ok ch
  | line0 :: rest, r, ch =>
    if pyStrip line0 = "" then runSearch rest r ch
    else if pyStartsWith "info depth" (pyStrip line0) then
      (match parse_info (pyStrip line0) with
       | .ok r2 => runSearch rest r2 (ch.pushIfNotFull r2)
       | .error e => .error e)
    else if pyStartsWith "bestmove" (pyStrip line0) then
      (match pySplit (pyStrip line0) with
       | _ :: mv :: _ => .ok (ch.pushIfNotFull { r with best_move := mv })
       | _ => .ok (ch.pushIfNotFull r))
    else runSearch rest r ch

/-- One wake-up of the outer `while` body of `_analysis_loop` (lines
227-262): clear the `_new_position` event, read the current FEN under
the lock, send `stop`, `position fen <fen>`, `go depth <depth>`, then
run the inner read loop on the engine's reply script. -/
def analysisIteration (st : AnalyzerState) (engineLines : List String)
    (depth : Int) (ch : Channel) : Except Unit (AnalyzerState × Channel) :=
  let st1 : AnalyzerState := { st with new_position := false }
  let st2 : AnalyzerState :=
    { st1 with sent := st1.sent ++
        ["stop", "position fen " ++ st1.current_fen, goCmd depth] }
  match runSearch engineLines {} ch with
  | .ok ch2 => .ok (st2, ch2)
  | .error e => .error e

/-! ### Start-up handshake (`analyzer.py` lines 107-151)

`start` spawns the Stockfish subprocess and performs the UCI handshake.
The spawn itself and the passage of wall-clock time are external, so
the embedding takes the spawn outcome and the list of lines the process
emits *before the respective 5-second deadline elapses* as input: an
exhausted list models the deadline passing.  Note the asymmetry in the
Python source faithfully reproduced here: the `uciok` wait
(lines 121-128) is a `while`/`else` whose `else` kills the process and
returns `False`, while the `readyok` wait (lines 130-135) has no
`else` clause, so control falls through to `self._available = True;
return True` even when `readyok` never arrived. -/

inductive SpawnOutcome where
  | notFound
  | spawnError
  | ok (lines : List String)
deriving Repr, DecidableEq

structure StartResult where
  returned : Bool
  available : Bool
  sent : List String
deriving Repr, DecidableEq

/-- One handshake wait loop (`while time.time() < deadline: line =
readline().strip(); if line == target: break`): scan the lines arriving
before the deadline for the target, returning whether it was found and
the lines still unread. -/
def waitFor (target : String) : List String → Bool × List String
  | [] => (false, [])
  | line :: rest =>
    if pyStrip line = target then (true, rest) else waitFor target rest

/-- `StockfishAnalyzer.start` (`analyzer.py` lines 107-151):
`returned` is the method's return value, `available` the final
`_available` flag, `sent` the commands written to the engine. -/
def start (outcome : SpawnOutcome) : StartResult :=
  match outcome with
  | .notFound => ⟨false, false, []⟩
  | .spawnError => ⟨false, false, []⟩
  | .ok lines =>
    match waitFor "uciok" lines with
    | (false, _) => ⟨false, false, ["uci"]⟩
    | (true, rest) =>
      match waitFor "readyok" rest with
      | _ => ⟨true, true, ["uci", "isready"]⟩

/-! Step lemmas: one per branch of the Python token loop. -/

theorem parseLoop_skip (r : AnalysisResult) (t : String) (rest : List String)
    (h1 : t ≠ "depth") (h2 : t ≠ "score") (h3 : t ≠ "nodes")
    (h4 : t ≠ "nps") (h5 : t ≠ "pv") :
    parseLoop r (t :: rest) = parseLoop r rest := by
  simp [parseLoop, h1, h2, h3, h4, h5]

theorem parseLoop_depth (r : AnalysisResult) (v : String) (rest : List String)
    (n : Int) (h : pyInt? v = some n) :
    parseLoop r ("depth" :: v :: rest) =
      parseLoop { r with depth := n } rest := by
  simp [parseLoop, h]

theorem parseLoop_score_cp (r : AnalysisResult) (v : String)
    (rest : List String) (n : Int) (h : pyInt? v = some n) :
    parseLoop r ("score" :: "cp" :: v :: rest) =
      parseLoop { r with score_cp := n, is_mate := false } rest := by
  simp [parseLoop, h]

theorem parseLoop_score_mate (r : AnalysisResult) (v : String)
    (rest : List String) (n : Int) (h : pyInt? v = some n) :
    parseLoop r ("score" :: "mate" :: v :: rest) =
      parseLoop { r with score_mate := some n, is_mate := true, score_cp := (if 0 < n then (30000 : Int) else -30000) } rest := by
  simp [parseLoop, h]

theorem parseLoop_nodes (r : AnalysisResult) (v : String)
    (rest : List String) (n : Int) (h : pyInt? v = some n) :
    parseLoop r ("nodes" :: v :: rest) =
      parseLoop { r with nodes := n } rest := by
  simp [parseLoop, h]

theorem parseLoop_nps (r : AnalysisResult) (v : String)
    (rest : List String) (n : Int) (h : pyInt? v = some n) :
    parseLoop r ("nps" :: v :: rest) =
      parseLoop { r with nps := n } rest := by
  simp [parseLoop, h]

theorem parseLoop_pv_cons (r : AnalysisResult) (m : String)
    (rest : List String) :
    parseLoop r ("pv" :: m :: rest) =
      .ok { r with pv := m :: rest, best_move := m } := by
  simp [parseLoop]

theorem parseLoop_pv_nil (r : AnalysisResult) :
    parseLoop r ["pv"] = .ok { r with pv := [] } := by
  simp [parseLoop]

theorem parseLoop_score_other (r : AnalysisResult) (kind v : String)
    (rest : List String) (n : Int) (h : pyInt? v = some n)
    (hcp : kind ≠ "cp") (hmate : kind ≠ "mate") :
    parseLoop r ("score" :: kind :: v :: rest) = parseLoop r rest := by
  simp [parseLoop, h, hcp, hmate]

theorem parseLoop_pv (r : AnalysisResult) (rest : List String) :
    parseLoop r ("pv" :: rest) =
      .ok { r with pv := rest, best_move := rest.headD r.best_move } := by
  simp [parseLoop]

theorem parseLoop_mid {mid : List String} (hmid : MidTokens mid)
    (tail : List String) :
    ∀ r : AnalysisResult, ∃ r2 : AnalysisResult,
      parseLoop r (mid ++ tail) = parseLoop r2 tail ∧
      r2.depth = r.depth ∧ r2.score_cp = r.score_cp ∧
      r2.score_mate = r.score_mate ∧ r2.is_mate = r.is_mate ∧
      r2.best_move = r.best_move ∧ r2.pv = r.pv := by
  induction hmid with
  | nil =>
    intro r
    exact ⟨r, rfl, rfl, rfl, rfl, rfl, rfl, rfl⟩
  | nodes hv _ ih =>
    intro r
    obtain ⟨n, hn⟩ := Option.isSome_iff_exists.mp hv
    obtain ⟨r2, heq, h₁, h₂, h₃, h₄, h₅, h₆⟩ := ih { r with nodes := n }
    refine ⟨r2, ?_, h₁, h₂, h₃, h₄, h₅, h₆⟩
    rw [List.cons_append, List.cons_append, parseLoop_nodes _ _ _ _ hn]
    exact heq
  | nps hv _ ih =>
    intro r
    obtain ⟨n, hn⟩ := Option.isSome_iff_exists.mp hv
    obtain ⟨r2, heq, h₁, h₂, h₃, h₄, h₅, h₆⟩ := ih { r with nps := n }
    refine ⟨r2, ?_, h₁, h₂, h₃, h₄, h₅, h₆⟩
    rw [List.cons_append, List.cons_append, parseLoop_nps _ _ _ _ hn]
    exact heq
  | skip h1 h2 h3 h4 h5 _ ih =>
    intro r
    obtain ⟨r2, heq, h₁, h₂, h₃, h₄, h₅, h₆⟩ := ih r
    refine ⟨r2, ?_, h₁, h₂, h₃, h₄, h₅, h₆⟩
    rw [List.cons_append, parseLoop_skip _ _ _ h1 h2 h3 h4 h5]
    exact heq

theorem parseLoop_mateMid {mid : List String} (hmid : MateMidTokens mid)
    (tail : List String) :
    ∀ r : AnalysisResult, ∃ r2 : AnalysisResult,
      parseLoop r (mid ++ tail) = parseLoop r2 tail ∧
      r2.score_cp = r.score_cp ∧ r2.score_mate = r.score_mate ∧
      r2.is_mate = r.is_mate ∧ r2.best_move = r.best_move ∧
      r2.pv = r.pv := by
  induction hmid with
  | nil =>
    intro r
    exact ⟨r, rfl, rfl, rfl, rfl, rfl, rfl⟩
  | depth hv _ ih =>
    intro r
    obtain ⟨n, hn⟩ := Option.isSome_iff_exists.mp hv
    obtain ⟨r2, heq, h₁, h₂, h₃, h₄, h₅⟩ := ih { r with depth := n }
    refine ⟨r2, ?_, h₁, h₂, h₃, h₄, h₅⟩
    rw [List.cons_append, List.cons_append, parseLoop_depth _ _ _ _ hn]
    exact heq
  | nodes hv _ ih =>
    intro r
    obtain ⟨n, hn⟩ := Option.isSome_iff_exists.mp hv
    obtain ⟨r2, heq, h₁, h₂, h₃, h₄, h₅⟩ := ih { r with nodes := n }
    refine ⟨r2, ?_, h₁, h₂, h₃, h₄, h₅⟩
    rw [List.cons_append, List.cons_append, parseLoop_nodes _ _ _ _ hn]
    exact heq
  | nps hv _ ih =>
    intro r
    obtain ⟨n, hn⟩ := Option.isSome_iff_exists.mp hv
    obtain ⟨r2, heq, h₁, h₂, h₃, h₄, h₅⟩ := ih { r with nps := n }
    refine ⟨r2, ?_, h₁, h₂, h₃, h₄, h₅⟩
    rw [List.cons_append, List.cons_append, parseLoop_nps _ _ _ _ hn]
    exact heq
  | skip h1 h2 h3 h4 h5 _ ih =>
    intro r
    obtain ⟨r2, heq, h₁, h₂, h₃, h₄, h₅⟩ := ih r
    refine ⟨r2, ?_, h₁, h₂, h₃, h₄, h₅⟩
    rw [List.cons_append, parseLoop_skip _ _ _ h1 h2 h3 h4 h5]
    exact heq

/-- The mate-sentinel invariant: whenever the loop state has
`is_mate = true`, its `score_cp` holds one of the two sentinel values
written by the `score mate` branch. -/
theorem parseLoop_sentinel :
    ∀ (r0 : AnalysisResult) (ts : List String),
      (r0.is_mate = true → r0.score_cp = 30000 ∨ r0.score_cp = -30000) →
      ∀ r : AnalysisResult, parseLoop r0 ts = .ok r →
      (r.is_mate = true → r.score_cp = 30000 ∨ r.score_cp = -30000) := by
  intro r0 ts
  induction r0, ts using parseLoop.induct with
  | case1 =>
    intro hInv r h
    simp only [parseLoop] at h
    cases h
    exact hInv
  | case2 r0 v rest n hv ih =>
    intro hInv r h
    rw [parseLoop_depth _ _ _ _ hv] at h
    exact ih hInv r h
  | case3 r0 v rest hv =>
    intro hInv r h
    simp only [parseLoop, hv] at h
    exact Except.noConfusion h
  | case4 r0 v rest n hv ih =>
    intro hInv r h
    rw [parseLoop_score_cp _ _ _ _ hv] at h
    exact ih (fun hm => Bool.noConfusion hm) r h
  | case5 r0 v rest n hv r2 hne ih =>
    intro hInv r h
    rw [parseLoop_score_mate _ _ _ _ hv] at h
    refine ih (fun _ => ?_) r h
    by_cases hp : 0 < n
    · exact Or.inl (by simp [hp])
    · exact Or.inr (by simp [hp])
  | case6 r0 kind v rest n hv hcp hmate ih =>
    intro hInv r h
    rw [parseLoop_score_other _ _ _ _ _ hv hcp hmate] at h
    exact ih hInv r h
  | case7 r0 kind v rest hv =>
    intro hInv r h
    simp only [parseLoop, hv] at h
    exact Except.noConfusion h
  | case8 r0 v rest n hv ih =>
    intro hInv r h
    rw [parseLoop_nodes _ _ _ _ hv] at h
    exact ih hInv r h
  | case9 r0 v rest hv =>
    intro hInv r h
    simp only [parseLoop, hv] at h
    exact Except.noConfusion h
  | case10 r0 v rest n hv ih =>
    intro hInv r h
    rw [parseLoop_nps _ _ _ _ hv] at h
    exact ih hInv r h
  | case11 r0 v rest hv =>
    intro hInv r h
    simp only [parseLoop, hv] at h
    exact Except.noConfusion h
  | case12 r0 rest =>
    intro hInv r h
    rw [parseLoop_pv] at h
    cases h
    exact hInv
  | case13 =>
    rename_i ih
    intro hInv r h
    simp only [parseLoop] at h
    exact ih hInv r h

/-- Sign of the mate sentinel for nonzero mate distance. -/
theorem sentinel_sign (N : Int) (hN : N ≠ 0) :
    (if 0 < N then (30000 : Int) else -30000).sign = N.sign := by
  by_cases hp : 0 < N
  · rw [if_pos hp, Int.sign_eq_one_iff_pos.mpr hp]
    decide
  · have hneg : N < 0 := by omega
    rw [if_neg hp, Int.sign_eq_neg_one_iff_neg.mpr hneg]
    decide

/-- C2: every line tokenizing as
`info depth D score cp C <benign fields> pv M1 M2 ...` parses to
`depth = D`, `score_cp = C`, `is_mate = false`, the whole remainder
after `pv` becomes the principal variation, and `best_move` is its
first entry. -/
theorem parse_info_cp_line (line dS cS m1 : String) (D C : Int)
    (mid ms : List String)
    (hsplit : pySplit line =
      "info" :: "depth" :: dS :: "score" :: "cp" :: cS ::
        (mid ++ "pv" :: m1 :: ms))
    (hD : pyInt? dS = some D) (hC : pyInt? cS = some C)
    (hmid : MidTokens mid) :
    ∃ r : AnalysisResult, parse_info line = .ok r ∧
      r.depth = D ∧ r.score_cp = C ∧ r.is_mate = false ∧
      r.best_move = m1 ∧ r.pv = m1 :: ms := by
  obtain ⟨r2, heq, hdep, hcp, _, him, hbm, hpv⟩ :=
    parseLoop_mid hmid ("pv" :: m1 :: ms)
      (AnalysisResult.mk D C none "" [] 0 0 false)
  have hchain : parse_info line =
      .ok { r2 with pv := m1 :: ms, best_move := m1 } := by
    have e1 : parse_info line =
        parseLoop {} ("info" :: "depth" :: dS :: "score" :: "cp" :: cS ::
          (mid ++ "pv" :: m1 :: ms)) := by
      unfold parse_info
      rw [hsplit]
    have e2 := parseLoop_skip ({} : AnalysisResult) "info"
      ("depth" :: dS :: "score" :: "cp" :: cS :: (mid ++ "pv" :: m1 :: ms))
      (by decide) (by decide) (by decide) (by decide) (by decide)
    have e3 := parseLoop_depth ({} : AnalysisResult) dS
      ("score" :: "cp" :: cS :: (mid ++ "pv" :: m1 :: ms)) D hD
    have e4 := parseLoop_score_cp
      ({ ({} : AnalysisResult) with depth := D }) cS
      (mid ++ "pv" :: m1 :: ms) C hC
    exact e1.trans (e2.trans (e3.trans (e4.trans (heq.trans
      (parseLoop_pv_cons r2 m1 ms)))))
  refine ⟨_, hchain, ?_, ?_, ?_, ?_, ?_⟩
  · exact hdep
  · exact hcp
  · exact him
  · rfl
  · rfl

/-- Witness for `parse_info_cp_line` on a concrete engine line. -/
theorem parse_info_cp_line_witness :
    ∃ r : AnalysisResult,
      parse_info "info depth 12 score cp 34 nodes 1000 nps 500 pv e2e4 e7e5" =
        .ok r ∧
      r.depth = 12 ∧ r.score_cp = 34 ∧ r.is_mate = false ∧
      r.best_move = "e2e4" ∧ r.pv = "e2e4" :: ["e7e5"] :=
  parse_info_cp_line
    "info depth 12 score cp 34 nodes 1000 nps 500 pv e2e4 e7e5"
    "12" "34" "e2e4" 12 34 ["nodes", "1000", "nps", "500"] ["e7e5"]
    (by decide) (by decide) (by decide)
    (MidTokens.nodes (by decide) (MidTokens.nps (by decide) MidTokens.nil))

/-- Counterexample to C3 as stated: the engine line `score mate 0`
(emitted when the side to move is checkmated) parses with
`is_mate = true`, `score_mate = 0`, but `score_cp = -30000`, whose sign
(-1) does not match the sign of `N = 0`. -/
theorem parse_info_mate_counterexample :
    parse_info "info depth 1 score mate 0" =
      .ok { depth := 1, score_cp := -30000, score_mate := some 0,
            best_move := "", pv := [], nodes := 0, nps := 0,
            is_mate := true } ∧
    ((-30000 : Int).sign ≠ (0 : Int).sign) := by
  exact ⟨rfl, by decide⟩

/-- C3 (amended): for every info line containing `score mate N`, the
parser sets `is_mate = true`, `score_mate = N`, and
`score_cp = 30000` when `N > 0` and `-30000` otherwise, so the
sentinel's sign matches the sign of `N` whenever `N ≠ 0`; moreover
every successfully parsed result with `is_mate = true` carries one of
the two out-of-band sentinel values ±30000. -/
theorem parse_info_mate_line (line nS : String) (N : Int)
    (pre mid tailPv : List String)
    (hsplit : pySplit line =
      "info" :: (pre ++ "score" :: "mate" :: nS :: (mid ++ tailPv)))
    (hN : pyInt? nS = some N)
    (hpre : MateMidTokens pre) (hmid : MateMidTokens mid)
    (htail : tailPv = [] ∨ ∃ ms : List String, tailPv = "pv" :: ms) :
    (∃ r : AnalysisResult, parse_info line = .ok r ∧
      r.is_mate = true ∧ r.score_mate = some N ∧
      r.score_cp = (if 0 < N then (30000 : Int) else -30000) ∧
      (N ≠ 0 → r.score_cp.sign = N.sign)) ∧
    (∀ (line2 : String) (r2 : AnalysisResult), parse_info line2 = .ok r2 →
      r2.is_mate = true → r2.score_cp = 30000 ∨ r2.score_cp = -30000) := by
  constructor
  · obtain ⟨r1, heq1, hcp1, hsm1, him1, hbm1, hpv1⟩ :=
      parseLoop_mateMid hpre ("score" :: "mate" :: nS :: (mid ++ tailPv))
        ({} : AnalysisResult)
    obtain ⟨r2, heq2, hcp2, hsm2, him2, hbm2, hpv2⟩ :=
      parseLoop_mateMid hmid tailPv
        ({ r1 with score_mate := some N, is_mate := true, score_cp := (if 0 < N then (30000 : Int) else -30000) })
    have hchain : parse_info line = parseLoop r2 tailPv := by
      have e1 : parse_info line =
          parseLoop {} ("info" ::
            (pre ++ "score" :: "mate" :: nS :: (mid ++ tailPv))) := by
        unfold parse_info
        rw [hsplit]
      have e2 := parseLoop_skip ({} : AnalysisResult) "info"
        (pre ++ "score" :: "mate" :: nS :: (mid ++ tailPv))
        (by decide) (by decide) (by decide) (by decide) (by decide)
      have e3 := parseLoop_score_mate r1 nS (mid ++ tailPv) N hN
      exact e1.trans (e2.trans (heq1.trans (e3.trans heq2)))
    rcases htail with rfl | ⟨ms, rfl⟩
    · refine ⟨r2, hchain.trans rfl, him2, hsm2, hcp2, fun hN0 => ?_⟩
      rw [hcp2]
      exact sentinel_sign N hN0
    · refine ⟨{ r2 with pv := ms, best_move := ms.headD r2.best_move },
        hchain.trans (parseLoop_pv r2 ms), him2, hsm2, hcp2, fun hN0 => ?_⟩
      show r2.score_cp.sign = N.sign
      rw [hcp2]
      exact sentinel_sign N hN0
  · intro line2 r2 hok hm
    exact parseLoop_sentinel {} (pySplit line2)
      (fun hfalse => Bool.noConfusion hfalse) r2 hok hm

/-- Witness for `parse_info_mate_line` on a concrete mate line. -/
theorem parse_info_mate_line_witness :
    (∃ r : AnalysisResult,
      parse_info "info depth 3 score mate -2 pv d8h4" = .ok r ∧
      r.is_mate = true ∧ r.score_mate = some (-2) ∧
      r.score_cp = (if 0 < (-2 : Int) then (30000 : Int) else -30000) ∧
      ((-2 : Int) ≠ 0 → r.score_cp.sign = (-2 : Int).sign)) ∧
    (∀ (line2 : String) (r2 : AnalysisResult), parse_info line2 = .ok r2 →
      r2.is_mate = true → r2.score_cp = 30000 ∨ r2.score_cp = -30000) :=
  parse_info_mate_line "info depth 3 score mate -2 pv d8h4" "-2" (-2)
    ["depth", "3"] [] ["pv", "d8h4"]
    (by decide) (by decide)
    (MateMidTokens.depth (by decide) MateMidTokens.nil)
    MateMidTokens.nil
    (Or.inr ⟨["d8h4"], rfl⟩)

theorem parseLoop_ok_of_wf {ts : List String} (h : WfTokens ts) :
    ∀ r : AnalysisResult, ∃ r2 : AnalysisResult, parseLoop r ts = .ok r2 := by
  induction h with
  | nil =>
    intro r
    exact ⟨r, rfl⟩
  | depth hv _ ih =>
    intro r
    obtain ⟨n, hn⟩ := Option.isSome_iff_exists.mp hv
    obtain ⟨r2, h2⟩ := ih { r with depth := n }
    exact ⟨r2, (parseLoop_depth _ _ _ _ hn).trans h2⟩
  | @score kind v rest hv _ ih =>
    intro r
    obtain ⟨n, hn⟩ := Option.isSome_iff_exists.mp hv
    by_cases hcp : kind = "cp"
    · subst hcp
      obtain ⟨r2, h2⟩ := ih { r with score_cp := n, is_mate := false }
      exact ⟨r2, (parseLoop_score_cp _ _ _ _ hn).trans h2⟩
    · by_cases hmate : kind = "mate"
      · subst hmate
        obtain ⟨r2, h2⟩ := ih { r with score_mate := some n, is_mate := true, score_cp := (if 0 < n then (30000 : Int) else -30000) }
        exact ⟨r2, (parseLoop_score_mate _ _ _ _ hn).trans h2⟩
      · obtain ⟨r2, h2⟩ := ih r
        exact ⟨r2, (parseLoop_score_other _ _ _ _ _ hn hcp hmate).trans h2⟩
  | nodes hv _ ih =>
    intro r
    obtain ⟨n, hn⟩ := Option.isSome_iff_exists.mp hv
    obtain ⟨r2, h2⟩ := ih { r with nodes := n }
    exact ⟨r2, (parseLoop_nodes _ _ _ _ hn).trans h2⟩
  | nps hv _ ih =>
    intro r
    obtain ⟨n, hn⟩ := Option.isSome_iff_exists.mp hv
    obtain ⟨r2, h2⟩ := ih { r with nps := n }
    exact ⟨r2, (parseLoop_nps _ _ _ _ hn).trans h2⟩
  | pv =>
    intro r
    exact ⟨_, parseLoop_pv r _⟩
  | skip h1 h2 h3 h4 h5 _ ih =>
    intro r
    obtain ⟨r2, hr⟩ := ih r
    exact ⟨r2, (parseLoop_skip _ _ _ h1 h2 h3 h4 h5).trans hr⟩

/-- Counterexample to C9 as stated: on the line `info depth x` the
parser raises `ValueError` from `int("x")` instead of returning a
result. -/
theorem parse_info_total_counterexample :
    parse_info "info depth x" = .error () := by rfl

/-- C9 (amended): unrecognized tokens are skipped without error, and the
parser returns an `AnalysisResult` for every line whose recognized
numeric fields carry tokens `int()` accepts; it is not total on lines
with a non-numeric token in such a field. -/
theorem parse_info_total_amended (line : String)
    (h : WfTokens (pySplit line)) :
    ∃ r : AnalysisResult, parse_info line = .ok r :=
  parseLoop_ok_of_wf h {}

/-- Witness for `parse_info_total_amended` on a line with junk tokens. -/
theorem parse_info_total_amended_witness :
    ∃ r : AnalysisResult,
      parse_info "info depth 10 bogus stuff score cp 34 pv e2e4" = .ok r :=
  parse_info_total_amended "info depth 10 bogus stuff score cp 34 pv e2e4"
    (WfTokens.skip (by decide) (by decide) (by decide) (by decide) (by decide)
      (WfTokens.depth (by decide)
        (WfTokens.skip (by decide) (by decide) (by decide) (by decide)
          (by decide)
          (WfTokens.skip (by decide) (by decide) (by decide) (by decide)
            (by decide)
            (WfTokens.score (by decide) WfTokens.pv)))))

/-! ### Theorems for the pure classifier -/

/-- C4: `classify_move` computes the player-perspective loss as
`eval_before - eval_after` for White and `eval_after - eval_before` for
Black, floored at zero, so `cp_loss` is always non-negative; in
particular `eval_before = -100`, `eval_after = 150` for Black yields a
loss of 250. -/
theorem classify_move_loss_spec (b a : Int) (m : String) :
    (classify_move b a m true).cp_loss = max 0 (b - a) ∧
    (classify_move b a m false).cp_loss = max 0 (a - b) ∧
    (∀ w : Bool, 0 ≤ (classify_move b a m w).cp_loss) ∧
    (classify_move (-100) 150 m false).cp_loss = 250 := by
  refine ⟨rfl, rfl, ?_, rfl⟩
  intro w
  cases w <;> simp [classify_move]

/-- C5: `MoveClassification.classify` realises exactly the tier table of
the specification (≤ 0 brilliant, 1-10 best, 11-49 good, 50-99
inaccuracy, 100-199 mistake, ≥ 200 blunder), and the `is_blunder` flag
returned by `classify_move` is true exactly when the label is
`"blunder"`, equivalently when `cp_loss` reaches the configured
200-centipawn blunder threshold. -/
theorem classify_tiers_spec (loss : Int) (h : 0 ≤ loss) :
    MoveClassification.classify loss =
      (if loss ≤ 0 then "brilliant"
       else if loss ≤ 10 then "best"
       else if loss ≤ 49 then "good"
       else if loss ≤ 99 then "inaccuracy"
       else if loss ≤ 199 then "mistake"
       else "blunder") ∧
    (∀ (b a : Int) (m : String) (w : Bool),
      ((classify_move b a m w).is_blunder = true ↔
        (classify_move b a m w).label = "blunder") ∧
      ((classify_move b a m w).is_blunder = true ↔
        BLUNDER_THRESHOLD_CP ≤ (classify_move b a m w).cp_loss)) := by
  constructor
  · unfold MoveClassification.classify
    unfold INACCURACY_THRESHOLD_CP MISTAKE_THRESHOLD_CP BLUNDER_THRESHOLD_CP
    repeat' split
    all_goals first | rfl | omega
  · intro b a m w
    simp only [classify_move, MoveClassification.classify]
    unfold INACCURACY_THRESHOLD_CP MISTAKE_THRESHOLD_CP BLUNDER_THRESHOLD_CP
    constructor
    · repeat' split
      all_goals simp
      all_goals omega
    · simp [BLUNDER_THRESHOLD_CP]

/-- Witness for `classify_tiers_spec` at `loss = 120`. -/
theorem classify_tiers_spec_witness :
    MoveClassification.classify 120 =
      (if (120 : Int) ≤ 0 then "brilliant"
       else if (120 : Int) ≤ 10 then "best"
       else if (120 : Int) ≤ 49 then "good"
       else if (120 : Int) ≤ 99 then "inaccuracy"
       else if (120 : Int) ≤ 199 then "mistake"
       else "blunder") ∧
    (∀ (b a : Int) (m : String) (w : Bool),
      ((classify_move b a m w).is_blunder = true ↔
        (classify_move b a m w).label = "blunder") ∧
      ((classify_move b a m w).is_blunder = true ↔
        BLUNDER_THRESHOLD_CP ≤ (classify_move b a m w).cp_loss)) :=
  classify_tiers_spec 120 (by decide)

theorem foldl_put_buffer (rs : List AnalysisResult) :
    ∀ ch : Channel, (rs.foldl Channel.put ch).buffer = ch.buffer ++ rs := by
  induction rs with
  | nil => intro ch; simp
  | cons r rs ih =>
    intro ch
    simp [List.foldl_cons, ih, Channel.put]

theorem getLastD_eq_getLast {α : Type} (l : List α) (d : α) (h : l ≠ []) :
    l.getLastD d = l.getLast h := by
  cases l with
  | nil => exact absurd rfl h
  | cons a l => simp [List.getLastD_eq_getLast?, List.getLast?_eq_getLast]

/-- C1: pushing `N ≥ 1` results into a fresh channel and calling
`get_latest` returns exactly the newest one and empties the buffer; a
second call before any new push returns the same value again; and on a
fresh channel (before any analysis) `get_latest` returns the zero-valued
`AnalysisResult`. -/
theorem get_latest_contract (rs : List AnalysisResult) (h : rs ≠ []) :
    (get_latest (rs.foldl Channel.put Channel.init)).1 = rs.getLast h ∧
    (get_latest (rs.foldl Channel.put Channel.init)).2.buffer = [] ∧
    (get_latest (get_latest (rs.foldl Channel.put Channel.init)).2).1 =
      (get_latest (rs.foldl Channel.put Channel.init)).1 ∧
    (get_latest Channel.init).1 = zeroResult := by
  have hbuf : (rs.foldl Channel.put Channel.init).buffer = rs := by
    simpa [Channel.init] using foldl_put_buffer rs Channel.init
  refine ⟨?_, ?_, ?_, rfl⟩
  · show (rs.foldl Channel.put Channel.init).buffer.getLastD
        (rs.foldl Channel.put Channel.init).latest = rs.getLast h
    rw [hbuf]
    exact getLastD_eq_getLast rs _ h
  · simp [get_latest]
  · simp [get_latest]

/-- Witness for `get_latest_contract`: two pushed results, the one with
`depth = 2` pushed last. -/
theorem get_latest_contract_witness :
    (get_latest ([{ depth := 1 }, { depth := 2 }].foldl
        Channel.put Channel.init)).1 =
      [({ depth := 1 } : AnalysisResult),
       ({ depth := 2 } : AnalysisResult)].getLast (by decide) ∧
    (get_latest ([{ depth := 1 }, { depth := 2 }].foldl
        Channel.put Channel.init)).2.buffer = [] ∧
    (get_latest (get_latest ([{ depth := 1 }, { depth := 2 }].foldl
        Channel.put Channel.init)).2).1 =
      (get_latest ([{ depth := 1 }, { depth := 2 }].foldl
        Channel.put Channel.init)).1 ∧
    (get_latest Channel.init).1 = zeroResult :=
  get_latest_contract [{ depth := 1 }, { depth := 2 }] (by decide)

/-- C7: in `GameState._make_player_move`, the classification of a
just-played move calls `classify_move` with `eval_after` equal to the
negation of the `eval_before` read from the cached latest analysis
result, rather than a fresh engine evaluation. -/
theorem player_move_negated_eval (analysis : AnalysisResult)
    (uci : String) (w : Bool) :
    make_player_move_classification analysis uci w =
      classify_move analysis.score_cp (-analysis.score_cp) uci w ∧
    (make_player_move_classification analysis uci w).eval_after =
      -(make_player_move_classification analysis uci w).eval_before := by
  refine ⟨rfl, ?_⟩
  simp [make_player_move_classification, classify_move]

theorem position_cmd_ne_stop (fen : String) :
    "position fen " ++ fen ≠ "stop" := by
  intro h
  have hl : ("position fen " ++ fen).length = ("stop" : String).length :=
    congrArg String.length h
  rw [String.length_append] at hl
  have h13 : ("position fen " : String).length = 13 := rfl
  have h4 : ("stop" : String).length = 4 := rfl
  omega

theorem go_cmd_ne_stop (d : Int) : goCmd d ≠ "stop" := by
  intro h
  have hl : ("go depth " ++ toString d).length = ("stop" : String).length :=
    congrArg String.length h
  rw [String.length_append] at hl
  have h9 : ("go depth " : String).length = 9 := rfl
  have h4 : ("stop" : String).length = 4 := rfl
  omega

theorem getLastD_concat {α : Type} (l : List α) (a d : α) :
    (l ++ [a]).getLastD d = a := by
  rw [List.getLastD_eq_getLast?, List.getLast?_concat]
  rfl

/-- C6: two `set_position` calls in rapid succession (both landing
before the loop's wake-up, the engine not yet having replied) coalesce:
the shared FEN holds only the second position and the event is set
once; the single following loop iteration sends exactly one `stop`
followed by `position`/`go` commands for the second position, and when
the engine replies to that search with its `bestmove`, the value
observed through `get_latest` is the second search's best move. -/
theorem set_position_coalesce (st0 : AnalyzerState) (fenA fenB : String)
    (depth : Int) (ch : Channel) (lineB mv : String)
    (hfull : ch.buffer.length < 64)
    (hstrip : pyStrip lineB = lineB)
    (hne : lineB ≠ "")
    (hinfo : pyStartsWith "info depth" lineB = false)
    (hbest : pyStartsWith "bestmove" lineB = true)
    (hsplit : pySplit lineB = ["bestmove", mv]) :
    (set_position (set_position st0 fenA) fenB).current_fen = fenB ∧
    (set_position (set_position st0 fenA) fenB).new_position = true ∧
    ∃ ch2 : Channel,
      analysisIteration (set_position (set_position st0 fenA) fenB)
          [lineB] depth ch =
        .ok ({ current_fen := fenB, new_position := false,
               sent := st0.sent ++
                 ["stop", "position fen " ++ fenB, goCmd depth] }, ch2) ∧
      List.count "stop"
        ["stop", "position fen " ++ fenB, goCmd depth] = 1 ∧
      (get_latest ch2).1.best_move = mv := by
  have hrs : runSearch [lineB] ({} : AnalysisResult) ch =
      .ok (ch.pushIfNotFull { ({} : AnalysisResult) with best_move := mv }) := by
    simp only [runSearch, hstrip, hne, hinfo, hbest, hsplit]
    simp
  refine ⟨rfl, rfl,
    ⟨ch.pushIfNotFull { ({} : AnalysisResult) with best_move := mv }, ?_, ?_, ?_⟩⟩
  · simp only [analysisIteration, set_position, hrs]
  · have hp := position_cmd_ne_stop fenB
    have hg := go_cmd_ne_stop depth
    simp [List.count_cons, hp, hg]
  · have hpush : ch.pushIfNotFull { ({} : AnalysisResult) with best_move := mv } =
        { ch with buffer :=
            ch.buffer ++ [{ ({} : AnalysisResult) with best_move := mv }] } := by
      simp [Channel.pushIfNotFull, Channel.put, hfull]
    rw [hpush]
    simp [get_latest, getLastD_concat]

/-- Witness for `set_position_coalesce` with a concrete stub engine. -/
theorem set_position_coalesce_witness :
    (set_position (set_position ⟨"start", false, []⟩ "fenA") "fenB").current_fen
      = "fenB" ∧
    (set_position (set_position ⟨"start", false, []⟩ "fenA") "fenB").new_position
      = true ∧
    ∃ ch2 : Channel,
      analysisIteration (set_position (set_position ⟨"start", false, []⟩ "fenA")
          "fenB") ["bestmove d2d4"] 18 Channel.init =
        .ok ({ current_fen := "fenB", new_position := false,
               sent := ([] : List String) ++
                 ["stop", "position fen " ++ "fenB", goCmd 18] }, ch2) ∧
      List.count "stop"
        ["stop", "position fen " ++ "fenB", goCmd 18] = 1 ∧
      (get_latest ch2).1.best_move = "d2d4" :=
  set_position_coalesce ⟨"start", false, []⟩ "fenA" "fenB" 18 Channel.init
    "bestmove d2d4" "d2d4" (by decide) (by decide) (by decide) (by decide)
    (by decide) (by decide)

/-- C8: after `uciok`, `start` does send `isready` and runs the
`readyok` wait under the same 5-second deadline policy — but when the
deadline elapses without `readyok` (here: the engine emits nothing
further), the missing `while`/`else` makes `start` fall through, set
`_available = True` and return `True` instead of failing. -/
theorem start_readyok_timeout :
    start (SpawnOutcome.ok ["uciok"]) =
      { returned := true, available := true, sent := ["uci", "isready"] } :=
  rfl

/-- C10: `start` on a nonexistent engine binary (the spawn raises
`FileNotFoundError`) returns `False` with `_available = False` and
nothing written, and `get_latest` on the untouched fresh channel still
returns the zero-valued `AnalysisResult`. -/
theorem start_notfound_degrades :
    (start SpawnOutcome.notFound).returned = false ∧
    (start SpawnOutcome.notFound).available = false ∧
    (start SpawnOutcome.notFound).sent = [] ∧
    (get_latest Channel.init).1 = zeroResult :=
  ⟨rfl, rfl, rfl, rfl⟩

end MindGames
